import Mathlib

/-!
Shallow embedding of `pkg/wallet/service.go` and `pkg/types` of the
temproray_wallet repository, together with proofs settling the frozen
claims about it.

Go mutable state is threaded explicitly: every operation takes the
`Service` value and returns the (possibly updated) `Service` next to its
`Except` result; on an error path the Go methods return before touching
the receiver, so the embedding returns the input state unchanged there.
Machine integers (`int64`, `types.Money`) are embedded as `Int`; the
claims under study never exercise wrap-around.  The uuid strings that
`uuid.New().String()` produces for payment and favorite IDs are embedded
as values of a fresh counter kept in the state: the only property the
code relies on is that each generated ID is new.
-/

deriving instance DecidableEq for Except

namespace Wallet

/-- Go `types.Money`: amount of money in minimal units (cents), an `int64`. -/
abbrev Money := Int

/-- Go `types.PaymentStatus` with its three constants `OK`, `FAIL`, `INPROGRESS`. -/
inductive PaymentStatus
  | ok
  | fail
  | inProgress
deriving DecidableEq, Repr

/-- Go `types.Payment`.  The uuid `ID` string is embedded as a `Nat` drawn from
the fresh counter `Service.nextPaymentID`. -/
structure Payment where
  id : Nat
  accountID : Int
  amount : Money
  category : String
  status : PaymentStatus
deriving DecidableEq, Repr

/-- Go `types.Account`. -/
structure Account where
  id : Int
  phone : String
  balance : Money
deriving DecidableEq, Repr

/-- Go `types.Favorite`.  The uuid `ID` string is embedded as a `Nat` drawn from
the fresh counter `Service.nextFavoriteID`. -/
structure Favorite where
  id : Nat
  accountID : Int
  name : String
  amount : Money
  category : String
deriving DecidableEq, Repr

/-- The error values declared at the top of `service.go`. -/
inductive Err
  | phoneRegistered
  | amountMustBePositive
  | accountNotFound
  | notEnoughBalance
  | paymentNotFound
  | favoriteNotFound
deriving DecidableEq, Repr

/-- Go `wallet.Service`: the three collections and the account-ID counter.
The two extra `Nat` counters embed the uuid generator producing fresh
payment and favorite IDs. -/
structure Service where
  nextAccountID : Int
  accounts : List Account
  payments : List Payment
  favorites : List Favorite
  nextPaymentID : Nat
  nextFavoriteID : Nat
deriving DecidableEq, Repr

/-- The zero value of `wallet.Service`: all collections empty, counters zero. -/
def emptyService : Service :=
  { nextAccountID := 0, accounts := [], payments := [], favorites := [],
    nextPaymentID := 0, nextFavoriteID := 0 }

/-- In-place mutation through the first pointer found by a Go linear scan:
replace the first element satisfying `p` by its image under `f`, keep the
rest of the list unchanged. -/
def updateFirst (p : α → Bool) (f : α → α) : List α → List α
  | [] => []
  | x :: xs => if p x then f x :: xs else x :: updateFirst p f xs

/-- Go `Service.FindAccountByID`: linear scan, first account whose `ID` matches. -/
def findAccountByID (s : Service) (accountID : Int) : Option Account :=
  s.accounts.find? (fun acc => acc.id == accountID)

/-- Go `Service.FindPaymentByID`: linear scan, first payment whose `ID` matches. -/
def findPaymentByID (s : Service) (paymentID : Nat) : Option Payment :=
  s.payments.find? (fun payment => payment.id == paymentID)

/-- Go `Service.FindFavoriteByID`: linear scan, first favorite whose `ID` matches. -/
def findFavoriteByID (s : Service) (favoriteID : Nat) : Option Favorite :=
  s.favorites.find? (fun favorite => favorite.id == favoriteID)

/-- Go `Service.RegisterAccount`: fail if some account already holds the phone,
otherwise increment `nextAccountID`, create a zero-balance account with the
new ID and append it. -/
def registerAccount (s : Service) (phone : String) : Except Err Account × Service :=
  if s.accounts.any (fun account => account.phone == phone) then
    (Except.error Err.phoneRegistered, s)
  else
    let account : Account :=
      { id := s.nextAccountID + 1, phone := phone, balance := 0 }
    (Except.ok account,
      { s with nextAccountID := s.nextAccountID + 1,
               accounts := s.accounts ++ [account] })

/-- Go `Service.Deposit`: reject non-positive amounts, fail when the account is
missing, otherwise increase the found account's balance in place. -/
def deposit (s : Service) (accountID : Int) (amount : Money) :
    Except Err Unit × Service :=
  if amount ≤ 0 then (Except.error Err.amountMustBePositive, s)
  else
    match findAccountByID s accountID with
    | none => (Except.error Err.accountNotFound, s)
    | some _ =>
      (Except.ok (),
        { s with accounts := (updateFirst (fun acc => acc.id == accountID)
            (fun acc => { acc with balance := acc.balance + amount }) s.accounts) })

/-- Go `Service.Pay`: reject non-positive amounts, fail when the account is
missing or its balance is below `amount`; otherwise debit the account, create
a payment with a fresh ID and status `INPROGRESS`, and append it. -/
def pay (s : Service) (accountID : Int) (amount : Money) (category : String) :
    Except Err Payment × Service :=
  if amount ≤ 0 then (Except.error Err.amountMustBePositive, s)
  else
    match findAccountByID s accountID with
    | none => (Except.error Err.accountNotFound, s)
    | some account =>
      if account.balance < amount then (Except.error Err.notEnoughBalance, s)
      else
        let payment : Payment :=
          { id := s.nextPaymentID, accountID := accountID, amount := amount,
            category := category, status := PaymentStatus.inProgress }
        (Except.ok payment,
          { s with
              accounts := (updateFirst (fun acc => acc.id == accountID)
                (fun acc => { acc with balance := acc.balance - amount }) s.accounts),
              payments := s.payments ++ [payment],
              nextPaymentID := s.nextPaymentID + 1 })

/-- Go `Service.Reject`: look the payment up, then its account; on success set
the payment's status to `FAIL` and credit the payment's full amount back to
the account, with no check of the payment's current status. -/
def reject (s : Service) (paymentID : Nat) : Except Err Unit × Service :=
  match findPaymentByID s paymentID with
  | none => (Except.error Err.paymentNotFound, s)
  | some payment =>
    match findAccountByID s payment.accountID with
    | none => (Except.error Err.accountNotFound, s)
    | some _ =>
      (Except.ok (),
        { s with
            payments := (updateFirst (fun q => q.id == paymentID)
              (fun q => { q with status := PaymentStatus.fail }) s.payments),
            accounts := (updateFirst (fun acc => acc.id == payment.accountID)
              (fun acc => { acc with balance := acc.balance + payment.amount })
              s.accounts) })

/-- Go `Service.Repeat`: look the payment and its account up, fail when the
balance is below the original amount, otherwise re-invoke `Pay` with the
original account, amount and category. -/
def repeatPayment (s : Service) (paymentID : Nat) : Except Err Payment × Service :=
  match findPaymentByID s paymentID with
  | none => (Except.error Err.paymentNotFound, s)
  | some payment =>
    match findAccountByID s payment.accountID with
    | none => (Except.error Err.accountNotFound, s)
    | some account =>
      if account.balance < payment.amount then (Except.error Err.notEnoughBalance, s)
      else pay s account.id payment.amount payment.category

/-- Go `Service.FavoritePayment`: snapshot the payment's account, amount and
category into a favorite with a fresh ID and append it. -/
def favoritePayment (s : Service) (paymentID : Nat) (name : String) :
    Except Err Favorite × Service :=
  match findPaymentByID s paymentID with
  | none => (Except.error Err.paymentNotFound, s)
  | some payment =>
    let favorite : Favorite :=
      { id := s.nextFavoriteID, accountID := payment.accountID, name := name,
        amount := payment.amount, category := payment.category }
    (Except.ok favorite,
      { s with favorites := s.favorites ++ [favorite],
               nextFavoriteID := s.nextFavoriteID + 1 })

/-- Go `Service.SumPayments`: clamp the goroutine count to at least 1, give each
of the `g` workers the half-open index range starting at `i * paysPerRoutine`
of width `paysPerRoutine` (each worker breaks out when its index passes the end
of the collection), and add the workers' subtotals into the shared sum.  The
join of the per-worker subtotals is deterministic for integer addition, so the
concurrent merge is embedded as a fold in worker order. -/
def sumPayments (s : Service) (goroutines : Int) : Money :=
  let g : Nat := if goroutines < 1 then 1 else goroutines.toNat
  let paysPerRoutine : Nat := s.payments.length / g + 1
  (List.range g).foldl
    (fun sum i =>
      sum + ((s.payments.drop (i * paysPerRoutine)).take paysPerRoutine).foldl
        (fun subtotal q => subtotal + q.amount) 0)
    0

/-- Go `Service.FilterPayments`: after the account-existence check, the same
clamped partition scheme as `sumPayments`; each worker collects the payments of
its range whose `AccountID` matches, and the partial slices are appended into
the shared result.  The concurrent merge order is scheduler-dependent in Go;
the embedding fixes worker order, and the claims about the result are stated
up to membership. -/
def filterPayments (s : Service) (accountID : Int) (goroutines : Int) :
    Except Err (List Payment) :=
  match findAccountByID s accountID with
  | none => Except.error Err.accountNotFound
  | some _ =>
    let g : Nat := if goroutines < 1 then 1 else goroutines.toNat
    let paysPerRoutine : Nat := s.payments.length / g + 1
    Except.ok ((List.range g).foldl
      (fun acc i =>
        acc ++ ((s.payments.drop (i * paysPerRoutine)).take paysPerRoutine).filter
          (fun q => q.accountID == accountID))
      [])

/-- Go `wallet.Progress`: one entry of the staged batch sum. -/
structure Progress where
  part : Nat
  result : Money
deriving DecidableEq, Repr

/-- The fixed batch size hard-coded in `Service.SumPaymentsWithProgress`. -/
def batchSize : Nat := 100000

/-- Go `Service.SumPaymentsWithProgress`: `1 + total / batchSize` batches; batch
`i` covers the slice from `i * batchSize` to `(1 + i) * batchSize` clipped to
the collection length, is summed by a worker the driver waits for, and its
entry `{Part = i, Result = subtotal}` is put on the channel before the next
batch starts, so the entries come out in batch order. -/
def sumPaymentsWithProgress (s : Service) : List Progress :=
  let routines := 1 + s.payments.length / batchSize
  (List.range routines).map
    (fun i =>
      let batchStart := i * batchSize
      let batchEnd0 := (1 + i) * batchSize
      let batchEnd :=
        if s.payments.length < batchEnd0 then s.payments.length else batchEnd0
      { part := i,
        result := ((s.payments.drop batchStart).take (batchEnd - batchStart)).foldl
          (fun sum q => sum + q.amount) 0 })

/-- Go `Service.PayFromFavorite`: look the favorite and its account up, fail when
the balance is below the snapshotted amount, otherwise re-invoke `Pay` with the
favorite's account, amount and category. -/
def payFromFavorite (s : Service) (favoriteID : Nat) : Except Err Payment × Service :=
  match findFavoriteByID s favoriteID with
  | none => (Except.error Err.favoriteNotFound, s)
  | some favorite =>
    match findAccountByID s favorite.accountID with
    | none => (Except.error Err.accountNotFound, s)
    | some account =>
      if account.balance < favorite.amount then (Except.error Err.notEnoughBalance, s)
      else pay s account.id favorite.amount favorite.category

/-- A Go linear scan that found an element keeps finding it (now updated) after
the in-place mutation, provided the update preserves the scan's predicate. -/
theorem find?_updateFirst {p : α → Bool} {f : α → α} {l : List α} {x : α}
    (hl : l.find? p = some x) (hf : p (f x) = true) :
    (updateFirst p f l).find? p = some (f x) := by
  induction l with
  | nil => simp at hl
  | cons a as ih =>
    by_cases h : p a
    · rw [List.find?_cons_of_pos _ h] at hl
      cases hl
      simp [updateFirst, h, List.find?_cons_of_pos _ hf]
    · rw [List.find?_cons_of_neg _ h] at hl
      have hrw : updateFirst p f (a :: as) = a :: updateFirst p f as := by
        simp [updateFirst, h]
      rw [hrw, List.find?_cons_of_neg _ h]
      exact ih hl

/-- Every element of the mutated list is an old element or the image of one. -/
theorem mem_updateFirst {p : α → Bool} {f : α → α} {l : List α} {y : α}
    (hy : y ∈ updateFirst p f l) : y ∈ l ∨ ∃ x, x ∈ l ∧ y = f x := by
  induction l with
  | nil => simp [updateFirst] at hy
  | cons a as ih =>
    by_cases h : p a
    · have hrw : updateFirst p f (a :: as) = f a :: as := by simp [updateFirst, h]
      rw [hrw, List.mem_cons] at hy
      rcases hy with hy | hy
      · exact Or.inr ⟨a, List.mem_cons_self a as, hy⟩
      · exact Or.inl (List.mem_cons_of_mem a hy)
    · have hrw : updateFirst p f (a :: as) = a :: updateFirst p f as := by
        simp [updateFirst, h]
      rw [hrw, List.mem_cons] at hy
      rcases hy with hy | hy
      · exact Or.inl (hy ▸ List.mem_cons_self a as)
      · rcases ih hy with hy' | ⟨x, hx, hfx⟩
        · exact Or.inl (List.mem_cons_of_mem a hy')
        · exact Or.inr ⟨x, List.mem_cons_of_mem a hx, hfx⟩

/-- The success branch of `reject`, at the level of the scans a caller can run
on the resulting state: the payment is found with status `FAIL` and otherwise
unchanged, the account is found with the payment's amount credited. -/
theorem reject_ok {s : Service} {paymentID : Nat} {payment : Payment}
    {account : Account}
    (hp : findPaymentByID s paymentID = some payment)
    (ha : findAccountByID s payment.accountID = some account) :
    (reject s paymentID).1 = Except.ok () ∧
    findPaymentByID (reject s paymentID).2 paymentID
      = some { payment with status := PaymentStatus.fail } ∧
    findAccountByID (reject s paymentID).2 payment.accountID
      = some { account with balance := account.balance + payment.amount } := by
  have hp' : s.payments.find? (fun q => q.id == paymentID) = some payment := hp
  have ha' : s.accounts.find? (fun acc => acc.id == payment.accountID) = some account := ha
  have hpq := List.find?_some hp'
  have haq := List.find?_some ha'
  refine ⟨by simp [reject, hp, ha], ?_, ?_⟩
  · simp only [reject, findPaymentByID, findAccountByID, hp', ha']
    refine find?_updateFirst hp' ?_
    exact hpq
  · simp only [reject, findPaymentByID, findAccountByID, hp', ha']
    refine find?_updateFirst ha' ?_
    exact haq

/-- C8: `Pay` with a non-positive amount fails with `AmountMustBePositive` and
returns the service state unchanged: no balance moves and no payment is
appended. -/
theorem pay_nonpositive (s : Service) (accountID : Int) (amount : Money)
    (category : String) (h : amount ≤ 0) :
    pay s accountID amount category = (Except.error Err.amountMustBePositive, s) := by
  simp [pay, h]

/-- Witness for `pay_nonpositive` at a concrete non-positive amount. -/
theorem pay_nonpositive_witness :
    (0 : Money) ≤ 0 ∧
    pay emptyService 1 0 "food" = (Except.error Err.amountMustBePositive, emptyService) :=
  ⟨by decide, pay_nonpositive emptyService 1 0 "food" (by decide)⟩

/-- C10: when the payment is found but no account carries its `AccountID`,
`Reject` fails with `AccountNotFound` and returns the state unchanged: the
payment keeps its status and no balance moves. -/
theorem reject_missing_account (s : Service) (paymentID : Nat) (payment : Payment)
    (hp : findPaymentByID s paymentID = some payment)
    (ha : findAccountByID s payment.accountID = none) :
    reject s paymentID = (Except.error Err.accountNotFound, s) := by
  simp [reject, hp, ha]

/-- Concrete orphan-payment state for the `reject_missing_account` witness. -/
def orphanService : Service :=
  { nextAccountID := 0, accounts := [],
    payments := [{ id := 0, accountID := 7, amount := 5, category := "food",
                   status := PaymentStatus.inProgress }],
    favorites := [], nextPaymentID := 1, nextFavoriteID := 0 }

/-- Witness for `reject_missing_account` on the orphan-payment state. -/
theorem reject_missing_account_witness :
    findPaymentByID orphanService 0
        = some { id := 0, accountID := 7, amount := 5, category := "food",
                 status := PaymentStatus.inProgress } ∧
    findAccountByID orphanService 7 = none ∧
    reject orphanService 0 = (Except.error Err.accountNotFound, orphanService) :=
  ⟨by decide, by decide,
    reject_missing_account orphanService 0
      { id := 0, accountID := 7, amount := 5, category := "food",
        status := PaymentStatus.inProgress } (by decide) (by decide)⟩

/-- C7: `RegisterAccount` on a phone some account already holds fails with
`PhoneAlreadyRegistered` and leaves the state unchanged (in particular the
account-ID counter is not incremented and nothing is appended); on a fresh
phone it allocates the next sequential ID and appends a zero-balance account. -/
theorem registerAccount_spec (s : Service) (phone : String) :
    ((∃ acc ∈ s.accounts, acc.phone = phone) →
      registerAccount s phone = (Except.error Err.phoneRegistered, s)) ∧
    ((∀ acc ∈ s.accounts, acc.phone ≠ phone) →
      ∃ account s',
        registerAccount s phone = (Except.ok account, s') ∧
        account.id = s.nextAccountID + 1 ∧ account.phone = phone ∧
        account.balance = 0 ∧
        s'.nextAccountID = s.nextAccountID + 1 ∧
        s'.accounts = s.accounts ++ [account] ∧
        s'.payments = s.payments ∧ s'.favorites = s.favorites) := by
  constructor
  · intro ⟨acc, hacc, hphone⟩
    have hany : s.accounts.any (fun account => account.phone == phone) = true :=
      List.any_eq_true.mpr ⟨acc, hacc, by simp [hphone]⟩
    simp [registerAccount, hany]
  · intro hfresh
    have hany : s.accounts.any (fun account => account.phone == phone) = false := by
      rw [Bool.eq_false_iff]
      intro hcontra
      rcases List.any_eq_true.mp hcontra with ⟨acc, hacc, heq⟩
      exact hfresh acc hacc (by simpa using heq)
    refine ⟨{ id := s.nextAccountID + 1, phone := phone, balance := 0 },
      { s with nextAccountID := s.nextAccountID + 1,
               accounts := s.accounts ++
                 [{ id := s.nextAccountID + 1, phone := phone, balance := 0 }] },
      by simp [registerAccount, hany], rfl, rfl, rfl, rfl, rfl, rfl, rfl⟩

/-- Single-account service used by several witnesses. -/
def oneAccountService : Service :=
  { nextAccountID := 1,
    accounts := [{ id := 1, phone := "900000001", balance := 50 }],
    payments := [], favorites := [], nextPaymentID := 0, nextFavoriteID := 0 }

/-- Witness for `registerAccount_spec`: the duplicate branch fires on the
existing phone of `oneAccountService`. -/
theorem registerAccount_spec_witness :
    registerAccount oneAccountService "900000001"
      = (Except.error Err.phoneRegistered, oneAccountService) :=
  (registerAccount_spec oneAccountService "900000001").1
    ⟨{ id := 1, phone := "900000001", balance := 50 }, by decide, rfl⟩

/-- C2: the full contract of `Pay`: `AmountMustBePositive` for a non-positive
amount, else `AccountNotFound` when the account is missing, else
`NotEnoughBalance` when the balance is below the amount; otherwise the account
balance drops by exactly the amount and exactly one new payment with a fresh
ID, the given account, amount and category, and status `INPROGRESS`, is
appended and returned.  Freshness is relative to the generator invariant that
every existing payment ID is below the counter. -/
theorem pay_spec (s : Service) (accountID : Int) (amount : Money) (category : String) :
    (amount ≤ 0 →
      pay s accountID amount category = (Except.error Err.amountMustBePositive, s)) ∧
    (0 < amount → findAccountByID s accountID = none →
      pay s accountID amount category = (Except.error Err.accountNotFound, s)) ∧
    (∀ account, 0 < amount → findAccountByID s accountID = some account →
      account.balance < amount →
      pay s accountID amount category = (Except.error Err.notEnoughBalance, s)) ∧
    (∀ account, 0 < amount → findAccountByID s accountID = some account →
      amount ≤ account.balance →
      ∃ payment s',
        pay s accountID amount category = (Except.ok payment, s') ∧
        payment.accountID = accountID ∧ payment.amount = amount ∧
        payment.category = category ∧ payment.status = PaymentStatus.inProgress ∧
        ((∀ q ∈ s.payments, q.id < s.nextPaymentID) →
          ∀ q ∈ s.payments, q.id ≠ payment.id) ∧
        s'.payments = s.payments ++ [payment] ∧
        findAccountByID s' accountID
          = some { account with balance := account.balance - amount } ∧
        s'.favorites = s.favorites) := by
  refine ⟨?_, ?_, ?_, ?_⟩
  · intro h
    simp [pay, h]
  · intro hpos hnone
    simp [pay, if_neg (not_le.mpr hpos), hnone]
  · intro account hpos hsome hbal
    simp [pay, if_neg (not_le.mpr hpos), hsome, hbal]
  · intro account hpos hsome hbal
    have hfind : s.accounts.find? (fun acc => acc.id == accountID) = some account := hsome
    have hacc := List.find?_some hfind
    refine ⟨{ id := s.nextPaymentID, accountID := accountID, amount := amount,
              category := category, status := PaymentStatus.inProgress },
      { s with
          accounts := (updateFirst (fun acc => acc.id == accountID)
            (fun acc => { acc with balance := acc.balance - amount }) s.accounts),
          payments := s.payments ++
            [{ id := s.nextPaymentID, accountID := accountID, amount := amount,
               category := category, status := PaymentStatus.inProgress }],
          nextPaymentID := s.nextPaymentID + 1 },
      ?_, rfl, rfl, rfl, rfl, ?_, rfl, ?_, rfl⟩
    · simp [pay, if_neg (not_le.mpr hpos), hsome, if_neg (not_lt.mpr hbal)]
    · intro hlt q hq hcontra
      have := hlt q hq
      simp only [hcontra] at this
      exact lt_irrefl _ this
    · simp only [findAccountByID]
      refine find?_updateFirst hfind ?_
      exact hacc

/-- Witness for `pay_spec`: the three failure branches at concrete inputs on
the single-account service (balance 50). -/
theorem pay_spec_witness :
    pay oneAccountService 1 (-5) "food"
      = (Except.error Err.amountMustBePositive, oneAccountService) ∧
    pay oneAccountService 2 20 "food"
      = (Except.error Err.accountNotFound, oneAccountService) ∧
    pay oneAccountService 1 60 "food"
      = (Except.error Err.notEnoughBalance, oneAccountService) :=
  ⟨(pay_spec oneAccountService 1 (-5) "food").1 (by decide),
   (pay_spec oneAccountService 2 20 "food").2.1 (by decide) (by decide),
   (pay_spec oneAccountService 1 60 "food").2.2.1
     { id := 1, phone := "900000001", balance := 50 } (by decide) (by decide) (by decide)⟩

/-- C4: when the payment and its account both exist, `Reject` succeeds, sets
the payment's status to `FAIL` and credits the full original amount back to
the account, with no condition on the payment's current status; applying it a
second time to the same payment credits the amount again. -/
theorem reject_spec (s : Service) (paymentID : Nat) (payment : Payment)
    (account : Account)
    (hp : findPaymentByID s paymentID = some payment)
    (ha : findAccountByID s payment.accountID = some account) :
    (reject s paymentID).1 = Except.ok () ∧
    findPaymentByID (reject s paymentID).2 paymentID
      = some { payment with status := PaymentStatus.fail } ∧
    findAccountByID (reject s paymentID).2 payment.accountID
      = some { account with balance := account.balance + payment.amount } ∧
    findAccountByID (reject (reject s paymentID).2 paymentID).2 payment.accountID
      = some { account with
               balance := account.balance + payment.amount + payment.amount } := by
  obtain ⟨h1, h2, h3⟩ := reject_ok hp ha
  refine ⟨h1, h2, h3, ?_⟩
  obtain ⟨_, _, h5⟩ := reject_ok h2 h3
  exact h5

/-- Concrete one-account, one-payment state for the `reject_spec` witness. -/
def rejectWitnessService : Service :=
  { nextAccountID := 1,
    accounts := [{ id := 1, phone := "900000001", balance := 50 }],
    payments := [{ id := 0, accountID := 1, amount := 20, category := "food",
                   status := PaymentStatus.inProgress }],
    favorites := [], nextPaymentID := 1, nextFavoriteID := 0 }

/-- Witness for `reject_spec`: rejecting the one payment credits 20, and a
second rejection of the same payment credits 20 again. -/
theorem reject_spec_witness :
    (reject rejectWitnessService 0).1 = Except.ok () ∧
    findPaymentByID (reject rejectWitnessService 0).2 0
      = some { id := 0, accountID := 1, amount := 20, category := "food",
               status := PaymentStatus.fail } ∧
    findAccountByID (reject rejectWitnessService 0).2 1
      = some { id := 1, phone := "900000001", balance := 70 } ∧
    findAccountByID (reject (reject rejectWitnessService 0).2 0).2 1
      = some { id := 1, phone := "900000001", balance := 90 } := by
  simpa using reject_spec rejectWitnessService 0
    { id := 0, accountID := 1, amount := 20, category := "food",
      status := PaymentStatus.inProgress }
    { id := 1, phone := "900000001", balance := 50 } (by decide) (by decide)

/-- A left fold adding `f` over a list of indices, started at `c`, is `c` plus
the sum of the images. -/
theorem foldl_add_map (xs : List Nat) (f : Nat → Money) (c : Money) :
    xs.foldl (fun sum i => sum + f i) c = c + (xs.map f).sum := by
  induction xs generalizing c with
  | nil => simp
  | cons a as ih => simp [ih, add_assoc]

/-- A worker's local accumulation of payment amounts, started at `c`. -/
theorem foldl_add_amount (l : List Payment) (c : Money) :
    l.foldl (fun sum q => sum + q.amount) c = c + (l.map Payment.amount).sum := by
  induction l generalizing c with
  | nil => simp
  | cons a as ih => simp [ih, add_assoc]

/-- The locked merge of per-worker slices, in worker order, started at `c`. -/
theorem foldl_append_map (xs : List Nat) (f : Nat → List Payment) (c : List Payment) :
    xs.foldl (fun acc i => acc ++ f i) c = c ++ (xs.map f).flatten := by
  induction xs generalizing c with
  | nil => simp
  | cons a as ih => simp [ih]

/-- The `g` contiguous chunks of width `pp` (each clipped at the end of the
list) cover exactly the first `g * pp` elements: their sums add up to the sum
over that front segment. -/
theorem sum_chunks (l : List Payment) (pp g : Nat) :
    ((List.range g).map
      (fun i => (((l.drop (i * pp)).take pp).map Payment.amount).sum)).sum
      = ((l.take (g * pp)).map Payment.amount).sum := by
  induction g generalizing l with
  | zero => simp
  | succ n ih =>
    rw [List.range_succ_eq_map, List.map_cons, List.sum_cons, List.map_map]
    have hcomp :
        ((fun i => (((l.drop (i * pp)).take pp).map Payment.amount).sum) ∘ Nat.succ)
          = (fun i =>
              ((((l.drop pp).drop (i * pp)).take pp).map Payment.amount).sum) := by
      funext i
      simp only [Function.comp_apply]
      rw [Nat.succ_mul, Nat.add_comm, ← List.drop_drop]
    rw [hcomp, ih, Nat.succ_mul, Nat.add_comm (n * pp) pp, List.take_add,
      List.map_append, List.sum_append, Nat.zero_mul, List.drop_zero]

/-- Chunked filtering, joined in chunk order, filters the first `g * pp`
elements. -/
theorem filter_chunks (l : List Payment) (pred : Payment → Bool) (pp g : Nat) :
    ((List.range g).map
      (fun i => ((l.drop (i * pp)).take pp).filter pred)).flatten
      = (l.take (g * pp)).filter pred := by
  induction g generalizing l with
  | zero => simp
  | succ n ih =>
    rw [List.range_succ_eq_map, List.map_cons, List.flatten_cons, List.map_map]
    have hcomp :
        ((fun i => ((l.drop (i * pp)).take pp).filter pred) ∘ Nat.succ)
          = (fun i => (((l.drop pp).drop (i * pp)).take pp).filter pred) := by
      funext i
      simp only [Function.comp_apply]
      rw [Nat.succ_mul, Nat.add_comm, ← List.drop_drop]
    rw [hcomp, ih, Nat.succ_mul, Nat.add_comm (n * pp) pp, List.take_add,
      List.filter_append, Nat.zero_mul, List.drop_zero]

/-- The collection is shorter than `partitionCount * (length / partitionCount + 1)`:
the clipped partitions cover every payment. -/
theorem length_lt_cover (n g : Nat) (hg : 0 < g) : n < g * (n / g + 1) :=
  calc n = g * (n / g) + n % g := (Nat.div_add_mod n g).symm
    _ < g * (n / g) + g := Nat.add_lt_add_left (Nat.mod_lt n hg) _
    _ = g * (n / g + 1) := by rw [Nat.mul_add, Nat.mul_one]

/-- The clamped goroutine count is positive. -/
theorem clamped_pos (k : Int) : 0 < (if k < 1 then 1 else k.toNat) := by
  split
  · omega
  · omega

/-- `SumPayments` computes the sum of all payment amounts, for every goroutine
count. -/
theorem sumPayments_eq_total (s : Service) (k : Int) :
    sumPayments s k = (s.payments.map Payment.amount).sum := by
  unfold sumPayments
  simp only [foldl_add_amount, zero_add]
  rw [foldl_add_map, zero_add, sum_chunks, List.take_of_length_le]
  exact Nat.le_of_lt (length_lt_cover s.payments.length _ (clamped_pos k))

/-- C3: the worker count does not affect `SumPayments`: for every `k ≥ 1` it
returns the same value as with a single worker, because the clipped
partitions of width `length / k + 1` cover every payment exactly once. -/
theorem sumPayments_workers (s : Service) (k : Int) (_hk : 1 ≤ k) :
    sumPayments s k = sumPayments s 1 := by
  rw [sumPayments_eq_total, sumPayments_eq_total]

/-- Service holding eleven payments with amounts 1, 2, ..., 11 (sum 66). -/
def elevenService : Service :=
  { nextAccountID := 1,
    accounts := [{ id := 1, phone := "900000001", balance := 0 }],
    payments := (List.range 11).map
      (fun n => { id := n, accountID := 1, amount := (n : Int) + 1,
                  category := "mobile", status := PaymentStatus.inProgress }),
    favorites := [], nextPaymentID := 11, nextFavoriteID := 0 }

/-- Witness for `sumPayments_workers`: with amounts 1..11 every worker count
gives 66, here at `k = 4`. -/
theorem sumPayments_workers_witness :
    (1 : Int) ≤ 4 ∧ sumPayments elevenService 4 = sumPayments elevenService 1 ∧
    sumPayments elevenService 1 = 66 :=
  ⟨by decide, sumPayments_workers elevenService 4 (by decide), by decide⟩

/-- `FilterPayments`, when the account exists, returns exactly the filter of
the payment collection, for every goroutine count. -/
theorem filterPayments_eq (s : Service) (accountID : Int) (k : Int)
    (account : Account) (hsome : findAccountByID s accountID = some account) :
    filterPayments s accountID k
      = Except.ok (s.payments.filter (fun q => q.accountID == accountID)) := by
  unfold filterPayments
  rw [hsome]
  simp only []
  rw [foldl_append_map, List.nil_append, filter_chunks, List.take_of_length_le]
  exact Nat.le_of_lt (length_lt_cover s.payments.length _ (clamped_pos k))

/-- C6: `FilterPayments` fails with `AccountNotFound` when the account is
missing, for every goroutine count; when the account exists it returns, up to
membership, exactly the payments with the given `AccountID`, and the result
does not depend on the goroutine count. -/
theorem filterPayments_spec (s : Service) (accountID : Int) (k : Int) :
    (findAccountByID s accountID = none →
      filterPayments s accountID k = Except.error Err.accountNotFound) ∧
    (∀ account, findAccountByID s accountID = some account →
      ∃ l, filterPayments s accountID k = Except.ok l ∧
        (∀ q, q ∈ l ↔ q ∈ s.payments ∧ q.accountID = accountID) ∧
        filterPayments s accountID k = filterPayments s accountID 1) := by
  constructor
  · intro hnone
    simp [filterPayments, hnone]
  · intro account hsome
    refine ⟨s.payments.filter (fun q => q.accountID == accountID),
      filterPayments_eq s accountID k account hsome, ?_, ?_⟩
    · intro q
      simp [List.mem_filter]
    · rw [filterPayments_eq s accountID k account hsome,
        filterPayments_eq s accountID 1 account hsome]

/-- Witness for `filterPayments_spec`: on the eleven-payment service the
missing-account branch fires for account 2 and the present-account branch for
account 1, at `k = 3`. -/
theorem filterPayments_spec_witness :
    filterPayments elevenService 2 3 = Except.error Err.accountNotFound ∧
    ∃ l, filterPayments elevenService 1 3 = Except.ok l ∧
      (∀ q, q ∈ l ↔ q ∈ elevenService.payments ∧ q.accountID = 1) ∧
      filterPayments elevenService 1 3 = filterPayments elevenService 1 1 :=
  ⟨(filterPayments_spec elevenService 2 3).1 (by decide),
   (filterPayments_spec elevenService 1 3).2
     { id := 1, phone := "900000001", balance := 0 } (by decide)⟩

/-- C5: `SumPaymentsWithProgress` yields exactly `1 + total / batchSize`
progress entries; the entry at position `i` carries `Part = i` (so the batch
indices strictly increase along the sequence) and as `Result` the sum of the
amounts of the payments with indices in `[i * batchSize, min ((i+1) * batchSize)
total)`; an empty collection still yields the single entry `{0, 0}`. -/
theorem sumPaymentsWithProgress_spec (s : Service) :
    (sumPaymentsWithProgress s).length = 1 + s.payments.length / batchSize ∧
    (∀ i, ∀ h : i < (sumPaymentsWithProgress s).length,
      ((sumPaymentsWithProgress s).get ⟨i, h⟩).part = i ∧
      ((sumPaymentsWithProgress s).get ⟨i, h⟩).result
        = (((s.payments.drop (i * batchSize)).take
              (min ((i + 1) * batchSize) s.payments.length - i * batchSize)).map
            Payment.amount).sum) ∧
    (s.payments = [] → sumPaymentsWithProgress s = [{ part := 0, result := 0 }]) := by
  refine ⟨by simp [sumPaymentsWithProgress], ?_, ?_⟩
  · intro i h
    have hi : i < 1 + s.payments.length / batchSize := by
      simpa [sumPaymentsWithProgress] using h
    constructor
    · simp [sumPaymentsWithProgress]
    · simp only [sumPaymentsWithProgress, List.get_eq_getElem, List.getElem_map,
        List.getElem_range]
      rw [foldl_add_amount, zero_add]
      have harg :
          (if s.payments.length < (1 + i) * batchSize then s.payments.length
            else (1 + i) * batchSize) - i * batchSize
          = min ((i + 1) * batchSize) s.payments.length - i * batchSize := by
        have h1 : (1 + i) * batchSize = (i + 1) * batchSize := by ring
        rw [h1]
        split
        · omega
        · omega
      rw [harg]
  · intro hnil
    simp [sumPaymentsWithProgress, hnil, batchSize]
    rfl

/-- Witness for `sumPaymentsWithProgress_spec`: the empty collection yields the
single entry with batch index 0 and result 0. -/
theorem sumPaymentsWithProgress_spec_witness :
    sumPaymentsWithProgress emptyService = [{ part := 0, result := 0 }] :=
  (sumPaymentsWithProgress_spec emptyService).2.2 rfl

/-- The core mutating operations of the service, as closed syntax. -/
inductive OpFull
  | registerOp (phone : String)
  | depositOp (accountID : Int) (amount : Money)
  | payOp (accountID : Int) (amount : Money) (category : String)
  | rejectOp (paymentID : Nat)
  | repeatOp (paymentID : Nat)
  | favoriteOp (paymentID : Nat) (name : String)
  | payFromFavoriteOp (favoriteID : Nat)

/-- Run one core operation, keeping the state returned by the operation (on
error paths that is the unchanged input state). -/
def applyOp (s : Service) : OpFull → Service
  | OpFull.registerOp phone => (registerAccount s phone).2
  | OpFull.depositOp accountID amount => (deposit s accountID amount).2
  | OpFull.payOp accountID amount category => (pay s accountID amount category).2
  | OpFull.rejectOp paymentID => (reject s paymentID).2
  | OpFull.repeatOp paymentID => (repeatPayment s paymentID).2
  | OpFull.favoriteOp paymentID name => (favoritePayment s paymentID name).2
  | OpFull.payFromFavoriteOp favoriteID => (payFromFavorite s favoriteID).2

/-- The states reachable from the empty ledger by the core operations. -/
inductive Reachable : Service → Prop
  | init : Reachable emptyService
  | step (s : Service) (op : OpFull) : Reachable s → Reachable (applyOp s op)

/-- The status invariant of C9: no stored payment has status `OK`. -/
def NoOkPayment (s : Service) : Prop :=
  ∀ q ∈ s.payments, q.status ≠ PaymentStatus.ok

/-- `Pay` preserves the status invariant: it only appends an `INPROGRESS`
payment. -/
theorem noOk_pay (s : Service) (accountID : Int) (amount : Money)
    (category : String) (h : NoOkPayment s) :
    NoOkPayment (pay s accountID amount category).2 := by
  unfold pay
  split
  · exact h
  · split
    · exact h
    · split
      · exact h
      · intro q hq
        simp only [List.mem_append, List.mem_singleton] at hq
        rcases hq with hq | hq
        · exact h q hq
        · subst hq
          simp

/-- `Reject` preserves the status invariant: it only rewrites a status to
`FAIL`. -/
theorem noOk_reject (s : Service) (paymentID : Nat) (h : NoOkPayment s) :
    NoOkPayment (reject s paymentID).2 := by
  unfold reject
  split
  · exact h
  · split
    · exact h
    · intro q hq
      rcases mem_updateFirst hq with hq' | ⟨x, _, rfl⟩
      · exact h q hq'
      · simp

/-- Every core operation preserves the status invariant. -/
theorem noOk_applyOp (s : Service) (op : OpFull) (h : NoOkPayment s) :
    NoOkPayment (applyOp s op) := by
  cases op with
  | registerOp phone =>
    show NoOkPayment (registerAccount s phone).2
    unfold registerAccount
    split
    · exact h
    · exact h
  | depositOp accountID amount =>
    show NoOkPayment (deposit s accountID amount).2
    unfold deposit
    split
    · exact h
    · split
      · exact h
      · exact h
  | payOp accountID amount category =>
    exact noOk_pay s accountID amount category h
  | rejectOp paymentID =>
    exact noOk_reject s paymentID h
  | repeatOp paymentID =>
    show NoOkPayment (repeatPayment s paymentID).2
    unfold repeatPayment
    split
    · exact h
    · split
      · exact h
      · split
        · exact h
        · exact noOk_pay s _ _ _ h
  | favoriteOp paymentID name =>
    show NoOkPayment (favoritePayment s paymentID name).2
    unfold favoritePayment
    split
    · exact h
    · exact h
  | payFromFavoriteOp favoriteID =>
    show NoOkPayment (payFromFavorite s favoriteID).2
    unfold payFromFavorite
    split
    · exact h
    · split
      · exact h
      · split
        · exact h
        · exact noOk_pay s _ _ _ h

/-- C9: in every state reachable from the empty ledger by the core operations,
no payment has status `OK`: payments are created `INPROGRESS` and the only
transition any operation performs is to `FAIL` via `Reject`. -/
theorem reachable_no_ok (s : Service) (h : Reachable s) :
    ∀ q ∈ s.payments, q.status ≠ PaymentStatus.ok := by
  induction h with
  | init =>
    intro q hq
    simp [emptyService] at hq
  | step s' op _ ih =>
    exact noOk_applyOp s' op ih

/-- A state reached by register, deposit, pay, used by the C9 witness. -/
def reachedService : Service :=
  applyOp (applyOp (applyOp emptyService (OpFull.registerOp "900000001"))
    (OpFull.depositOp 1 50)) (OpFull.payOp 1 20 "food")

/-- Witness for `reachable_no_ok`: the payment created in `reachedService`
does not have status `OK`. -/
theorem reachable_no_ok_witness :
    ({ id := 0, accountID := 1, amount := 20, category := "food",
       status := PaymentStatus.inProgress } : Payment) ∈ reachedService.payments ∧
    ({ id := 0, accountID := 1, amount := 20, category := "food",
       status := PaymentStatus.inProgress } : Payment).status ≠ PaymentStatus.ok :=
  ⟨by decide,
   reachable_no_ok reachedService
     (Reachable.step _ _ (Reachable.step _ _ (Reachable.step _ _ Reachable.init)))
     _ (by decide)⟩

/-- One operation of a single-account session: the balance-invariant claims
quantify over finite sequences of these. -/
inductive AccOp
  | depositOp (amount : Money)
  | payOp (amount : Money) (category : String)
  | rejectOp (paymentID : Nat)

/-- Run one session operation against the account `accountID`, requiring it to
succeed. -/
def stepOk (accountID : Int) (s : Service) : AccOp → Option Service
  | AccOp.depositOp amount =>
    match deposit s accountID amount with
    | (Except.ok _, s') => some s'
    | (Except.error _, _) => none
  | AccOp.payOp amount category =>
    match pay s accountID amount category with
    | (Except.ok _, s') => some s'
    | (Except.error _, _) => none
  | AccOp.rejectOp paymentID =>
    match reject s paymentID with
    | (Except.ok _, s') => some s'
    | (Except.error _, _) => none

/-- Run a sequence of session operations, requiring every one to succeed. -/
def runOps (accountID : Int) : Service → List AccOp → Option Service
  | s, [] => some s
  | s, op :: rest =>
    match stepOk accountID s op with
    | none => none
    | some s' => runOps accountID s' rest

/-- Sum of the deposited amounts of a trace. -/
def depositsSum : List AccOp → Money
  | [] => 0
  | AccOp.depositOp amount :: rest => amount + depositsSum rest
  | AccOp.payOp _ _ :: rest => depositsSum rest
  | AccOp.rejectOp _ :: rest => depositsSum rest

/-- The payments a trace creates, as `(ID, amount)` pairs: the fresh-ID
counter starts at `c` and each `pay` consumes one value, matching the order in
which `Pay` draws IDs during the run. -/
def paysOf (c : Nat) : List AccOp → List (Nat × Money)
  | [] => []
  | AccOp.payOp amount _ :: rest => (c, amount) :: paysOf (c + 1) rest
  | AccOp.depositOp _ :: rest => paysOf c rest
  | AccOp.rejectOp _ :: rest => paysOf c rest

/-- The payment IDs passed to the rejection calls of a trace, one entry per
call. -/
def rejectCalls : List AccOp → List Nat
  | [] => []
  | AccOp.rejectOp paymentID :: rest => paymentID :: rejectCalls rest
  | AccOp.depositOp _ :: rest => rejectCalls rest
  | AccOp.payOp _ _ :: rest => rejectCalls rest

/-- The amount recorded for `paymentID` in an `(ID, amount)` list (0 when the
ID is absent). -/
def lookupAmount (al : List (Nat × Money)) (paymentID : Nat) : Money :=
  match al.find? (fun q => q.1 == paymentID) with
  | some q => q.2
  | none => 0

/-- Sum of the amounts of the payments never rejected: the second summand of
the claimed balance formula. -/
def neverRejectedSum (al : List (Nat × Money)) (rejected : List Nat) : Money :=
  ((al.filter (fun q => !(rejected.contains q.1))).map Prod.snd).sum

/-- Sum of the amounts of rejected payments counted once per rejection call:
the third summand of the claimed balance formula. -/
def rejectedPerCallSum (al : List (Nat × Money)) (rejected : List Nat) : Money :=
  (rejected.map (lookupAmount al)).sum

/-- Sum of the amounts of all payments of a trace. -/
def allPaysSum (al : List (Nat × Money)) : Money :=
  (al.map Prod.snd).sum

/-- The `(ID, amount)` view of the stored payments. -/
def idAmounts (l : List Payment) : List (Nat × Money) :=
  l.map (fun q => (q.id, q.amount))

/-- An update that changes neither `ID` nor amount leaves the `(ID, amount)`
view unchanged. -/
theorem map_updateFirst (p : α → Bool) (f : α → α) (g : α → β) (l : List α)
    (hf : ∀ x, g (f x) = g x) : (updateFirst p f l).map g = l.map g := by
  induction l with
  | nil => rfl
  | cons a as ih =>
    by_cases h : p a
    · simp [updateFirst, h, hf]
    · simp [updateFirst, h, ih]

/-- A payment found in the store is found, with its amount, in the
`(ID, amount)` view. -/
theorem find?_idAmounts (l : List Payment) (paymentID : Nat) (pm : Payment)
    (h : l.find? (fun q => q.id == paymentID) = some pm) :
    (idAmounts l).find? (fun q => q.1 == paymentID) = some (pm.id, pm.amount) := by
  induction l with
  | nil => simp at h
  | cons a as ih =>
    cases hp : (a.id == paymentID) with
    | true =>
      simp only [List.find?, hp] at h
      cases h
      simp [idAmounts, List.find?, hp]
    | false =>
      simp only [List.find?, hp] at h
      simp only [idAmounts, List.map_cons, List.find?, hp]
      exact ih h

/-- A lookup resolved by the front part of an association list ignores the
tail. -/
theorem lookupAmount_append_left (al bl : List (Nat × Money)) (paymentID : Nat)
    (q : Nat × Money) (h : al.find? (fun r => r.1 == paymentID) = some q) :
    lookupAmount (al ++ bl) paymentID = q.2 := by
  unfold lookupAmount
  rw [List.find?_append, h, Option.or_some]

/-- The balance bookkeeping of a successful single-account session: starting
from a state whose only account is `⟨A, ph, b⟩`, a successful run leaves that
account with `b`, plus the deposits, minus the amounts of all payments made,
plus the amount looked up for each rejection call. -/
theorem runOps_balance (tr : List AccOp) :
    ∀ (s s' : Service) (A : Int) (ph : String) (b : Money),
      s.accounts = [{ id := A, phone := ph, balance := b }] →
      runOps A s tr = some s' →
      s'.accounts
        = [{ id := A, phone := ph,
             balance := b + depositsSum tr - allPaysSum (paysOf s.nextPaymentID tr)
               + rejectedPerCallSum
                   (idAmounts s.payments ++ paysOf s.nextPaymentID tr)
                   (rejectCalls tr) }] := by
  induction tr with
  | nil =>
    intro s s' A ph b hA hrun
    simp only [runOps, Option.some.injEq] at hrun
    subst hrun
    simp [hA, depositsSum, paysOf, rejectCalls, allPaysSum, rejectedPerCallSum]
  | cons op rest ih =>
    intro s s' A ph b hA hrun
    cases op with
    | depositOp amount =>
      by_cases hamt : amount ≤ 0
      · simp [runOps, stepOk, deposit, hamt] at hrun
      · have hfind : findAccountByID s A
            = some { id := A, phone := ph, balance := b } := by
          simp [findAccountByID, hA]
        simp only [runOps, stepOk, deposit, if_neg hamt, hfind] at hrun
        have hupd : updateFirst (fun acc => acc.id == A)
            (fun acc => { acc with balance := acc.balance + amount }) s.accounts
            = [{ id := A, phone := ph, balance := b + amount }] := by
          simp [hA, updateFirst]
        rw [hupd] at hrun
        have hres := ih _ s' A ph (b + amount) rfl hrun
        rw [hres]
        dsimp only
        simp only [depositsSum, paysOf, rejectCalls, List.cons.injEq,
          Account.mk.injEq, and_true, true_and]
        ring
    | payOp amount category =>
      by_cases hamt : amount ≤ 0
      · simp [runOps, stepOk, pay, hamt] at hrun
      · have hfind : findAccountByID s A
            = some { id := A, phone := ph, balance := b } := by
          simp [findAccountByID, hA]
        by_cases hbal : b < amount
        · simp [runOps, stepOk, pay, if_neg hamt, hfind, hbal] at hrun
        · simp only [runOps, stepOk, pay, if_neg hamt, hfind, if_neg hbal] at hrun
          have hupd : updateFirst (fun acc => acc.id == A)
              (fun acc => { acc with balance := acc.balance - amount }) s.accounts
              = [{ id := A, phone := ph, balance := b - amount }] := by
            simp [hA, updateFirst]
          rw [hupd] at hrun
          have hres := ih _ s' A ph (b - amount) rfl hrun
          rw [hres]
          dsimp only
          simp only [depositsSum, paysOf, rejectCalls, allPaysSum, idAmounts,
            List.map_cons, List.map_nil, List.sum_cons, List.map_append,
            List.append_assoc, List.singleton_append, List.nil_append,
            List.cons_append, List.cons.injEq, Account.mk.injEq,
            and_true, true_and]
          ring
    | rejectOp paymentID =>
      cases hp : s.payments.find? (fun q => q.id == paymentID) with
      | none =>
        simp [runOps, stepOk, reject, findPaymentByID, hp] at hrun
      | some pm =>
        by_cases hpa : pm.accountID = A
        · have hfa : findAccountByID s pm.accountID
              = some { id := A, phone := ph, balance := b } := by
            simp [findAccountByID, hA, hpa]
          simp only [runOps, stepOk, reject, findPaymentByID, hp, hfa] at hrun
          have hupd : updateFirst (fun acc => acc.id == pm.accountID)
              (fun acc => { acc with balance := acc.balance + pm.amount }) s.accounts
              = [{ id := A, phone := ph, balance := b + pm.amount }] := by
            simp [hA, updateFirst, hpa]
          rw [hupd] at hrun
          have hres := ih _ s' A ph (b + pm.amount) rfl hrun
          rw [hres]
          dsimp only
          rw [show idAmounts (updateFirst (fun q => q.id == paymentID)
              (fun q => { q with status := PaymentStatus.fail }) s.payments)
              = idAmounts s.payments from map_updateFirst _ _ _ _ (fun x => rfl)]
          have hlook : lookupAmount
              (idAmounts s.payments ++ paysOf s.nextPaymentID rest) paymentID
              = pm.amount :=
            lookupAmount_append_left _ _ _ _ (find?_idAmounts _ _ _ hp)
          simp only [depositsSum, paysOf, rejectCalls, rejectedPerCallSum,
            List.map_cons, List.sum_cons, hlook, List.cons.injEq,
            Account.mk.injEq, and_true, true_and]
          ring
        · have hne : (A == pm.accountID) = false :=
            beq_eq_false_iff_ne.mpr (fun hh => hpa hh.symm)
          have hfa : findAccountByID s pm.accountID = none := by
            simp only [findAccountByID, hA, List.find?, hne]
          simp [runOps, stepOk, reject, findPaymentByID, hp, hfa] at hrun

/-- The starting state of a single-account session: registration of one phone
against the empty ledger, yielding account ID 1 with zero balance. -/
def regService (phone : String) : Service :=
  (registerAccount emptyService phone).2

/-- The session deposit 10, pay 3, reject that payment (its fresh ID is 0). -/
def cexTrace : List AccOp :=
  [AccOp.depositOp 10, AccOp.payOp 3 "food", AccOp.rejectOp 0]

/-- C1 counterexample: on the session deposit 10 / pay 3 / reject, the code
leaves the balance at 10, while the claimed formula deposits − (payments never
rejected) + (rejected amounts once per rejection call) gives 10 − 0 + 3 = 13:
the formula forgets that a rejected payment's amount was also deducted when it
was paid. -/
theorem balance_formula_counterexample :
    (runOps 1 (regService "900000001") cexTrace).map
        (fun s => s.accounts.map Account.balance) = some [10] ∧
    depositsSum cexTrace
        - neverRejectedSum (paysOf 0 cexTrace) (rejectCalls cexTrace)
        + rejectedPerCallSum (paysOf 0 cexTrace) (rejectCalls cexTrace) = 13 ∧
    (10 : Money) ≠ 13 :=
  ⟨by decide, by decide, by decide⟩

/-- C1 (amended): over every successful single-account session started from
registration, the final balance equals the sum of the deposits, minus the sum
of the amounts of all payments, plus the sum of the amounts of rejected
payments counted once per rejection call. -/
theorem balance_formula (phone : String) (tr : List AccOp) (s' : Service)
    (h : runOps 1 (regService phone) tr = some s') :
    s'.accounts.map Account.balance
      = [depositsSum tr - allPaysSum (paysOf 0 tr)
          + rejectedPerCallSum (paysOf 0 tr) (rejectCalls tr)] := by
  have hres := runOps_balance tr (regService phone) s' 1 phone 0 rfl h
  rw [hres]
  simp only [List.map_cons, List.map_nil]
  dsimp only [regService, registerAccount, emptyService]
  simp [idAmounts]

/-- Witness for `balance_formula`: the session deposit 10 / pay 3 / reject
ends with the balance the amended formula gives (10 − 3 + 3 = 10). -/
theorem balance_formula_witness :
    ({ nextAccountID := 1,
       accounts := [{ id := 1, phone := "900000001", balance := 10 }],
       payments := [{ id := 0, accountID := 1, amount := 3,
                      category := "food", status := PaymentStatus.fail }],
       favorites := [], nextPaymentID := 1,
       nextFavoriteID := 0 } : Service).accounts.map Account.balance
      = [depositsSum cexTrace - allPaysSum (paysOf 0 cexTrace)
          + rejectedPerCallSum (paysOf 0 cexTrace) (rejectCalls cexTrace)] :=
  balance_formula "900000001" cexTrace _ (by decide)

end Wallet
